import Mathlib

/-!
Verification of the mdb connection-resilience layer (a retry/refresh
decorator over an mgo MongoDB driver session).

The Go source is shallowly embedded: pure functions become Lean functions,
the driver calls (network effects) become oracles `Nat → Option GoError`
giving the outcome of each successive underlying attempt, and the retry
loops become fuel recursions that additionally record a trace (number of
underlying driver invocations and number of refresh invocations), so that
the retry-policy claims can be stated as facts about the trace.
-/

namespace Mdb

/-- A Go `error` value, as the failure classifier distinguishes them:
`io.EOF` is a distinguished sentinel value, `*net.OpError` is a
distinguished dynamic type (carrying a message), and every other non-nil
error is just a message string.  Go `nil` errors are `Option.none` at
use sites. -/
inductive GoError : Type where
  | eof : GoError
  | opError (msg : String) : GoError
  | other (msg : String) : GoError
deriving DecidableEq, Repr

/-- Model of Go's `strings.ToLower` (error messages in this code base are
ASCII, so the character-wise `Char.toLower` matches Go's behaviour). -/
def goToLower (s : String) : String :=
  String.mk (s.toList.map Char.toLower)

/-- `pat` is an initial segment of `l` (Boolean, character-wise). -/
def listIsInitialSegment : List Char → List Char → Bool
  | [], _ => true
  | _ :: _, [] => false
  | p :: ps, x :: xs => p == x && listIsInitialSegment ps xs

/-- Model of Go's `strings.HasPrefix s pat`. -/
def startsWithStr (s pat : String) : Bool :=
  listIsInitialSegment pat.toList s.toList

/-- Model of Go's `strings.HasSuffix s pat`. -/
def endsWithStr (s pat : String) : Bool :=
  listIsInitialSegment pat.toList.reverse s.toList.reverse

/-- Embedding of `isNetworkError` (mdb.go, globalsign variant):

```go
func isNetworkError(err error) bool {
    if err == nil { return false }
    if err == io.EOF { return true }
    if _, ok := err.(*net.OpError); ok { return true }
    e := strings.ToLower(err.Error())
    if strings.HasPrefix(e, "closed") || strings.HasSuffix(e, "closed") { return true }
    return false
}
```
-/
def isNetworkError : Option GoError → Bool
  | none => false
  | some .eof => true
  | some (.opError _) => true
  | some (.other msg) =>
      let e := goToLower msg
      startsWithStr e "closed" || endsWithStr e "closed"

/-- Trace of one run of a retry envelope: the error it returns, how many
times it invoked the underlying driver operation, and how many times it
invoked the session's `refresh`. -/
structure Trace : Type where
  result : Option GoError
  calls : Nat
  refreshes : Nat
deriving DecidableEq, Repr

/-- Loop body shared by all Collection/Iter operations
(`Collection.Insert`, `Collection.Update`, ..., `Iter.All`, `Iter.Close`):

```go
for i := 0; i < N; i++ {
    err = underlying()
    if !isNetworkError(err) { return }
    c.Database.refresh()
}
return err
```

`fuel` is the number of loop iterations still allowed, `i` the index of the
next attempt, `c`/`r` the invocation counters accumulated so far, and `err`
the Go named return value (last observed error, initially nil). -/
def collRetryAux (op : Nat → Option GoError) :
    Nat → Nat → Nat → Nat → Option GoError → Trace
  | 0, _, c, r, err => ⟨err, c, r⟩
  | fuel + 1, i, c, r, _ =>
      let e := op i
      if isNetworkError e then collRetryAux op fuel (i + 1) (c + 1) (r + 1) e
      else ⟨e, c + 1, r⟩

/-- The Collection/Iter retry envelope with budget `maxRetries` (a Go
`int`, so possibly negative: the `for` loop then runs zero times). -/
def collRetry (maxRetries : Int) (op : Nat → Option GoError) : Trace :=
  collRetryAux op maxRetries.toNat 0 0 0 none

/-- Loop body shared by the Query terminal operations
(`Query.One`, `Query.All`, `Query.Apply`, `Query.Explain`):

```go
for i := 0; i < N; i++ {
    err = underlying()
    if err == nil { return }
    if !isNetworkError(err) { continue }
    q.db.refresh()
}
return err
```

Note the difference from `collRetryAux`: a non-nil, non-network error does
not return; it re-enters the loop (without refreshing). -/
def queryRetryAux (op : Nat → Option GoError) :
    Nat → Nat → Nat → Nat → Option GoError → Trace
  | 0, _, c, r, err => ⟨err, c, r⟩
  | fuel + 1, i, c, r, _ =>
      match op i with
      | none => ⟨none, c + 1, r⟩
      | some e =>
          if isNetworkError (some e) then
            queryRetryAux op fuel (i + 1) (c + 1) (r + 1) (some e)
          else
            queryRetryAux op fuel (i + 1) (c + 1) r (some e)

/-- The Query-terminal retry envelope with budget `maxRetries`. -/
def queryRetry (maxRetries : Int) (op : Nat → Option GoError) : Trace :=
  queryRetryAux op maxRetries.toNat 0 0 0 none

/-- The state of a `Database` handle (mdb.go) that the wrapper code itself
reads or writes.  The owned `*mgo.Session` is an external driver object;
its identity plays no role in the retry logic, so it is not represented. -/
structure Database : Type where
  Name : String
  MaxConnectRetries : Int
  refreshing : Bool
deriving DecidableEq, Repr

/-- Observable outcome of one call to `Database.refresh`: the value of the
`refreshing` flag when the call returns, whether the call slept for the
fixed one-second interval, and how many underlying `session.Refresh()`
reconnects it performed. -/
structure RefreshOutcome : Type where
  flag : Bool
  sleptOneSecond : Bool
  reconnects : Nat
deriving DecidableEq, Repr

/-- Embedding of `Database.refresh` (mdb.go):

```go
func (db *Database) refresh() {
    if db.refreshing {
        time.Sleep(time.Second)
        return
    }
    db.refreshing = true
    db.session.Refresh()
    db.refreshing = false
}
```

The input is the `refreshing` flag observed on entry; the straight-line
body is summarised by its final flag value and its effects. -/
def Database.refresh (refreshing : Bool) : RefreshOutcome :=
  if refreshing then ⟨refreshing, true, 0⟩
  else ⟨false, false, 1⟩

/-- Trace of one call to `Database.Run`: the returned error, the number of
times the underlying `session.DB(name).Run(cmd, result)` was executed, and
the number of direct `session.Refresh()` reconnects performed. -/
structure RunTrace : Type where
  result : Option GoError
  calls : Nat
  reconnects : Nat
deriving DecidableEq, Repr

/-- Embedding of `Database.Run` (mdb.go):

```go
func (db *Database) Run(cmd interface{}, result interface{}) error {
    err := db.session.DB(db.Name).Run(cmd, result)
    if err != nil && isNetworkError(err) {
        db.session.Refresh()
        return db.session.DB(db.Name).Run(cmd, result)
    }
    return err
}
```

`op i` is the outcome of the `(i+1)`-th underlying command execution. -/
def Database.Run (op : Nat → Option GoError) : RunTrace :=
  let err := op 0
  if err.isSome && isNetworkError err then
    ⟨op 1, 2, 1⟩
  else
    ⟨err, 1, 0⟩

/-- Embedding of `Database.DB` (mdb.go):
`return &Database{session: db.session, Name: name, MaxConnectRetries: db.MaxConnectRetries}`
(the omitted `refreshing` field gets Go's zero value `false`). -/
def Database.DB (db : Database) (name : String) : Database :=
  { Name := name, MaxConnectRetries := db.MaxConnectRetries, refreshing := false }

/-- Embedding of `Database.Clone` (mdb.go):
`return &Database{session: db.session.Clone(), Name: db.Name}` — the
`MaxConnectRetries` and `refreshing` fields are omitted from the struct
literal, so they get Go's zero values `0` and `false`. -/
def Database.Clone (db : Database) : Database :=
  { Name := db.Name, MaxConnectRetries := 0, refreshing := false }

/-- Embedding of `Database.Copy` (mdb.go):
`return &Database{session: db.session.Copy(), Name: db.Name}` — like
`Clone`, the retry budget is not propagated and becomes `0`. -/
def Database.Copy (db : Database) : Database :=
  { Name := db.Name, MaxConnectRetries := 0, refreshing := false }

/-- A `Collection` handle (mcol.go): a reference to the owning `Database`
and the collection name (the wrapped `*mgo.Collection` is external). -/
structure Collection : Type where
  Database : Database
  Name : String
deriving DecidableEq, Repr

/-- Embedding of `Database.C` (mdb.go):
`return &Collection{Database: db, Name: name, col: ...}`. -/
def Database.C (db : Database) (name : String) : Collection :=
  { Database := db, Name := name }

/-- Embedding of `Collection.Insert` (mcol.go): the Collection retry loop
around `c.col.Insert(docs...)`, with the owning session's budget.
`op i` is the outcome of the `(i+1)`-th underlying insert attempt. -/
def Collection.Insert (c : Collection) (op : Nat → Option GoError) : Trace :=
  collRetry c.Database.MaxConnectRetries op

/-- Embedding of `Collection.Update` (mcol.go): the same Collection retry
loop around `c.col.Update(id, update)`. -/
def Collection.Update (c : Collection) (op : Nat → Option GoError) : Trace :=
  collRetry c.Database.MaxConnectRetries op

/-- Trace of an operation that also produces a value (e.g. a count). -/
structure ValTrace (α : Type) : Type where
  value : α
  result : Option GoError
  calls : Nat
  refreshes : Nat
deriving DecidableEq, Repr

/-- Collection retry loop for operations with a value-bearing named return
(`Collection.Count`'s `(n int, err error)`): the value behaves exactly like
the error, starting at its Go zero value `z` and updated on each attempt. -/
def collRetryValAux {α : Type} (op : Nat → α × Option GoError) :
    Nat → Nat → Nat → Nat → α → Option GoError → ValTrace α
  | 0, _, c, r, v, err => ⟨v, err, c, r⟩
  | fuel + 1, i, c, r, _, _ =>
      let (v, e) := op i
      if isNetworkError e then collRetryValAux op fuel (i + 1) (c + 1) (r + 1) v e
      else ⟨v, e, c + 1, r⟩

/-- Embedding of `Collection.Count` (mcol.go): the Collection retry loop
around `c.col.Count()`, whose named returns `(n, err)` start at `(0, nil)`. -/
def Collection.Count (c : Collection) (op : Nat → Int × Option GoError) :
    ValTrace Int :=
  collRetryValAux op c.Database.MaxConnectRetries.toNat 0 0 0 0 none

/-- An `Iter` handle (inter.go): owning `Database` reference (the wrapped
`*mgo.Iter` is external, except for `Close`, where its idempotence state
is modelled explicitly; see `MgoIter`). -/
structure Iter : Type where
  db : Database
deriving DecidableEq, Repr

/-- Embedding of `Iter.All` (inter.go): the Collection-style retry loop
around `iter.i.All(result)`. -/
def Iter.All (iter : Iter) (op : Nat → Option GoError) : Trace :=
  collRetry iter.db.MaxConnectRetries op

/-- Model of Go's `strconv.Atoi` (equivalently `strconv.ParseInt(s, 10, 0)`
with 64-bit `int`): an optional leading `+` or `-` sign followed by at
least one decimal digit, all characters digits, value within the signed
64-bit range; anything else is an error. -/
def goAtoi (s : String) : Except String Int :=
  let cs := s.toList
  let (neg, digits) :=
    match cs with
    | '-' :: rest => (true, rest)
    | '+' :: rest => (false, rest)
    | _ => (false, cs)
  if digits.isEmpty then
    .error ("strconv.Atoi: parsing " ++ "\"" ++ s ++ "\"" ++ ": invalid syntax")
  else if digits.all Char.isDigit then
    let n : Nat := digits.foldl (fun acc d => acc * 10 + (d.toNat - 48)) 0
    let v : Int := if neg then -(n : Int) else (n : Int)
    if v < -(2 ^ 63) ∨ 2 ^ 63 - 1 < v then
      .error ("strconv.Atoi: parsing " ++ "\"" ++ s ++ "\"" ++ ": value out of range")
    else
      .ok v
  else
    .error ("strconv.Atoi: parsing " ++ "\"" ++ s ++ "\"" ++ ": invalid syntax")

/-- The pieces of a parsed connection URL that `Dial` reads: the path
(with its leading slash, empty when absent) and the query parameters in
order of appearance. -/
structure URL : Type where
  path : String
  query : List (String × String)
deriving DecidableEq, Repr

/-- Model of Go's `url.Values.Get`: the first value associated with the
key, or the empty string when the key is absent. -/
def queryGet (q : List (String × String)) (key : String) : String :=
  match q.find? (fun kv => kv.1 == key) with
  | some kv => kv.2
  | none => ""

/-- Split a character list at the first occurrence of `c`; the second
component is `none` when `c` does not occur. -/
def breakAtChar (c : Char) : List Char → List Char × Option (List Char)
  | [] => ([], none)
  | x :: xs =>
      if x = c then ([], some xs)
      else
        let (a, r) := breakAtChar c xs
        (x :: a, r)

/-- Split a character list on every occurrence of `c`. -/
def splitOnChar (c : Char) : List Char → List (List Char)
  | [] => [[]]
  | x :: xs =>
      let r := splitOnChar c xs
      if x = c then [] :: r
      else
        match r with
        | [] => [[x]]
        | h :: t => (x :: h) :: t

/-- Parse a raw query string (`k1=v1&k2=v2&...`) into key/value pairs, as
Go's `url.ParseQuery` does for the plain (escape-free) strings `Dial`'s
connect targets use. -/
def parseQuery (qs : List Char) : List (String × String) :=
  ((splitOnChar '&' qs).filter (fun kv => !kv.isEmpty)).map fun kv =>
    match breakAtChar '=' kv with
    | (k, none) => (String.mk k, "")
    | (k, some v) => (String.mk k, String.mk v)

/-- Everything after the first `://`, or `none` when there is none. -/
def afterSchemeAux : List Char → Option (List Char)
  | [] => none
  | ':' :: '/' :: '/' :: rest => some rest
  | _ :: rest => afterSchemeAux rest

/-- Model of Go's `url.Parse` restricted to the simple, escape-free
`scheme://authority[/path][?query]` targets this specification exercises:
the scheme and authority are dropped (`Dial` never reads them), the path
keeps its leading slash, and the query string is parsed into pairs. -/
def parseURL (s : String) : URL :=
  let cs := s.toList
  let rest :=
    match afterSchemeAux cs with
    | some r => r
    | none => cs
  let (beforeQ, queryStr) := breakAtChar '?' rest
  let (_, pathRest) := breakAtChar '/' beforeQ
  let path :=
    match pathRest with
    | none => ""
    | some p => String.mk ('/' :: p)
  let query :=
    match queryStr with
    | none => []
    | some qs => parseQuery qs
  ⟨path, query⟩

/-- The exact error message `Dial` returns when no database name can be
resolved from the connect target. -/
def noDbNameError : String :=
  "please use mongodb://***/dbName or  mongodb://***?db=dbName to config default dbName"

/-- The database-name resolution step of `Dial` (mdb.go):

```go
var dbName string
if db := query.Get("db"); db != "" {
    dbName = db
    query.Del("db")
} else if len(uri.Path) > 1 {
    dbName = uri.Path[1:]
} else {
    return nil, errors.New("please use mongodb://***/dbName or ...")
}
```

(`uri.Path[1:]` is byte slicing in Go; on the ASCII paths involved it is
the character-wise drop used here). -/
def resolveDbName (u : URL) : Except String String :=
  if queryGet u.query "db" ≠ "" then .ok (queryGet u.query "db")
  else if 1 < u.path.length then .ok (String.mk (u.path.toList.drop 1))
  else .error noDbNameError

/-- The retry-budget resolution step of `Dial` (mdb.go):

```go
maxRetries := 2
if n := query.Get("maxRetries"); n != "" {
    tryn, err := strconv.Atoi(n)
    if err != nil { return nil, err }
    maxRetries = tryn
    query.Del("maxRetries")
}
```
-/
def resolveMaxRetries (q : List (String × String)) : Except String Int :=
  if queryGet q "maxRetries" ≠ "" then goAtoi (queryGet q "maxRetries")
  else .ok 2

/-- Embedding of the configuration-resolution stage of `Dial` (mdb.go):
name resolution, then budget resolution, then the handle construction
`&Database{Name: dbName, MaxConnectRetries: maxRetries, session: session}`.
An `.error` value is a `(nil, err)` return before any session exists; the
final `mgo.Dial` network step is external and does not affect the returned
handle's `Name` or `MaxConnectRetries`. -/
def dialFromURL (u : URL) : Except String Database :=
  match resolveDbName u with
  | .error e => .error e
  | .ok dbName =>
      match resolveMaxRetries u.query with
      | .error e => .error e
      | .ok maxRetries =>
          .ok { Name := dbName, MaxConnectRetries := maxRetries, refreshing := false }

/-- Embedding of `Dial` (mdb.go) on a raw connect target: parse the URL,
then resolve the configuration. -/
def Dial (mgoUrl : String) : Except String Database :=
  dialFromURL (parseURL mgoUrl)

/-- True when `Dial` fails (returns `(nil, err)`) on the given target. -/
def dialFails (mgoUrl : String) : Bool :=
  match Dial mgoUrl with
  | .error _ => true
  | .ok _ => false

/-- An opaque `float64` argument (only ever stored by the builder, never
computed with): represented by its 64-bit pattern. -/
structure Float64 : Type where
  bits : Nat
deriving DecidableEq, Repr

/-- An opaque Go `interface{}` document/selector value (only ever handed
through to the driver): represented by an abstract identifier. -/
structure GoValue : Type where
  id : Nat
deriving DecidableEq, Repr

/-- One recorded application of an underlying `mgo.Query` builder method,
mirroring the driver calls `q.q.Batch(n)`, `q.q.Prefetch(p)`, ... that the
wrapper forwards (mquery.go).  `setMaxTime`'s duration is in nanoseconds
(Go `time.Duration`). -/
inductive BuilderOp : Type where
  | batch (n : Int)
  | prefetch (p : Float64)
  | skip (n : Int)
  | limit (n : Int)
  | select (selector : GoValue)
  | sort (fields : List String)
  | hint (indexKey : List String)
  | setMaxScan (n : Int)
  | setMaxTime (d : Int)
  | snapshot
  | comment (c : String)
  | logReplay
deriving DecidableEq, Repr

/-- A `Query` handle (mquery.go): the owning `Database` reference and the
accumulated state of the underlying `*mgo.Query` builder, recorded as the
list of builder applications (most recent first). -/
structure Query : Type where
  q : List BuilderOp
  db : Database
deriving DecidableEq, Repr

/-- Embedding of `Collection.Find` (mcol.go):
`return &Query{db: c.Database, q: c.col.Find(query)}` — a fresh underlying
builder bound to the collection's owning session. -/
def Collection.Find (c : Collection) : Query :=
  { q := [], db := c.Database }

/-- Embedding of `Query.Batch` (mquery.go):
`q.q = q.q.Batch(n); return q` — the handle's builder field is updated in
place and the very same handle is returned.  Like every builder method
below, the body is pure local state mutation: it contains no call to
`isNetworkError`, `refresh`, or any driver network operation. -/
def Query.Batch (q : Query) (n : Int) : Query :=
  { q with q := .batch n :: q.q }

/-- Embedding of `Query.Prefetch` (mquery.go): `q.q = q.q.Prefetch(p); return q`. -/
def Query.Prefetch (q : Query) (p : Float64) : Query :=
  { q with q := .prefetch p :: q.q }

/-- Embedding of `Query.Skip` (mquery.go): `q.q = q.q.Skip(n); return q`. -/
def Query.Skip (q : Query) (n : Int) : Query :=
  { q with q := .skip n :: q.q }

/-- Embedding of `Query.Limit` (mquery.go): `q.q = q.q.Limit(n); return q`. -/
def Query.Limit (q : Query) (n : Int) : Query :=
  { q with q := .limit n :: q.q }

/-- Embedding of `Query.Select` (mquery.go): `q.q = q.q.Select(selector); return q`. -/
def Query.Select (q : Query) (selector : GoValue) : Query :=
  { q with q := .select selector :: q.q }

/-- Embedding of `Query.Sort` (mquery.go): `q.q = q.q.Sort(fields...); return q`. -/
def Query.Sort (q : Query) (fields : List String) : Query :=
  { q with q := .sort fields :: q.q }

/-- Embedding of `Query.Hint` (mquery.go): `q.q = q.q.Hint(indexKey...); return q`. -/
def Query.Hint (q : Query) (indexKey : List String) : Query :=
  { q with q := .hint indexKey :: q.q }

/-- Embedding of `Query.SetMaxScan` (mquery.go): `q.q = q.q.SetMaxScan(n); return q`. -/
def Query.SetMaxScan (q : Query) (n : Int) : Query :=
  { q with q := .setMaxScan n :: q.q }

/-- Embedding of `Query.SetMaxTime` (mquery.go): `q.q = q.q.SetMaxTime(d); return q`. -/
def Query.SetMaxTime (q : Query) (d : Int) : Query :=
  { q with q := .setMaxTime d :: q.q }

/-- Embedding of `Query.Snapshot` (mquery.go): `q.q = q.q.Snapshot(); return q`. -/
def Query.Snapshot (q : Query) : Query :=
  { q with q := .snapshot :: q.q }

/-- Embedding of `Query.Comment` (mquery.go): `q.q = q.q.Comment(comment); return q`. -/
def Query.Comment (q : Query) (comment : String) : Query :=
  { q with q := .comment comment :: q.q }

/-- Embedding of `Query.LogReplay` (mquery.go): `q.q = q.q.LogReplay(); return q`. -/
def Query.LogReplay (q : Query) : Query :=
  { q with q := .logReplay :: q.q }

/-- Embedding of the terminal `Query.One` (mquery.go): the Query retry
envelope around `q.q.One(result)`, with the owning session's budget. -/
def Query.One (q : Query) (op : Nat → Option GoError) : Trace :=
  queryRetry q.db.MaxConnectRetries op

/-- Embedding of the terminal `Query.All` (mquery.go): the Query retry
envelope around `q.q.All(result)`. -/
def Query.All (q : Query) (op : Nat → Option GoError) : Trace :=
  queryRetry q.db.MaxConnectRetries op

/-- Embedding of the terminal `Query.Explain` (mquery.go): the Query retry
envelope around `q.q.Explain(result)`. -/
def Query.Explain (q : Query) (op : Nat → Option GoError) : Trace :=
  queryRetry q.db.MaxConnectRetries op

/-- Embedding of the terminal `Query.Apply` (mquery.go): the Query retry
envelope around `q.q.Apply(change, result)`. -/
def Query.Apply (q : Query) (op : Nat → Option GoError) : Trace :=
  queryRetry q.db.MaxConnectRetries op

/-- The idempotence-relevant state of an underlying `*mgo.Iter` with
respect to `Close`: whether the server-side cursor teardown has already
been performed, and the fixed outcome that (per mgo's documented contract
"Close is idempotent ... will return the same result every time") every
`Close` call on this iterator returns. -/
structure MgoIter : Type where
  closed : Bool
  closeResult : Option GoError
deriving DecidableEq, Repr

/-- The driver's `iter.i.Close()` under its idempotence contract: it always
returns `closeResult`, and it performs the real server-side teardown
(counted by the third component) only on the first call. -/
def mgoIterClose (it : MgoIter) : MgoIter × Option GoError × Nat :=
  if it.closed then (it, it.closeResult, 0)
  else ({ it with closed := true }, it.closeResult, 1)

/-- Trace of one call to the wrapper `Iter.Close`: returned error, number
of underlying `iter.i.Close()` invocations, number of `refresh`
invocations, and number of real server-side teardowns performed. -/
structure CloseTrace : Type where
  result : Option GoError
  calls : Nat
  refreshes : Nat
  teardowns : Nat
deriving DecidableEq, Repr

/-- The `Iter.Close` retry loop (inter.go),

```go
for i := 0; i < iter.db.MaxConnectRetries; i++ {
    err = iter.i.Close()
    if !isNetworkError(err) { return }
    iter.db.refresh()
}
return err
```

threading the underlying iterator's close state through the attempts. -/
def iterCloseAux : Nat → MgoIter → Option GoError → Nat → Nat → Nat → MgoIter × CloseTrace
  | 0, it, err, c, r, td => (it, ⟨err, c, r, td⟩)
  | fuel + 1, it, _, c, r, td =>
      let (it2, e, t) := mgoIterClose it
      if isNetworkError e then iterCloseAux fuel it2 e (c + 1) (r + 1) (td + t)
      else (it2, ⟨e, c + 1, r, td + t⟩)

/-- Embedding of `Iter.Close` (inter.go): run the retry loop on the
underlying iterator state, returning the updated state and the trace. -/
def Iter.Close (maxRetries : Int) (it : MgoIter) : MgoIter × CloseTrace :=
  iterCloseAux maxRetries.toNat it none 0 0 0

/-- A session with database name `test`, the default retry budget 2, and
no refresh in progress; used to instantiate universally quantified
theorems at concrete inputs. -/
def testDB : Database := { Name := "test", MaxConnectRetries := 2, refreshing := false }

/-- A collection handle derived from `testDB`. -/
def testCol : Collection := testDB.C "people"

/-- A query handle derived from `testCol`. -/
def testQuery : Query := testCol.Find

/-- An underlying operation that always succeeds. -/
def okOp : Nat → Option GoError := fun _ => none

/-- An underlying operation that always fails with the transport
end-of-stream error. -/
def eofOp : Nat → Option GoError := fun _ => some .eof

/-- An underlying operation that always fails with a domain (non-network)
error. -/
def notFoundOp : Nat → Option GoError := fun _ => some (.other "not found")

/-- An underlying operation that fails with EOF on the first attempt and
succeeds afterwards. -/
def eofThenOkOp : Nat → Option GoError := fun i => if i = 0 then some .eof else none

/-! ## Loop lemmas -/

/-- One iteration of the Collection loop that exits: a non-network outcome
(success or domain error) returns immediately, with no refresh. -/
theorem collRetryAux_step_exit (op : Nat → Option GoError) (fuel i c r : Nat)
    (err : Option GoError) (h : isNetworkError (op i) = false) :
    collRetryAux op (fuel + 1) i c r err = ⟨op i, c + 1, r⟩ := by
  simp [collRetryAux, h]

/-- One iteration of the Collection loop that continues: a network outcome
refreshes and re-enters the loop. -/
theorem collRetryAux_step_net (op : Nat → Option GoError) (fuel i c r : Nat)
    (err : Option GoError) (h : isNetworkError (op i) = true) :
    collRetryAux op (fuel + 1) i c r err =
      collRetryAux op fuel (i + 1) (c + 1) (r + 1) (op i) := by
  simp [collRetryAux, h]

/-- With at least one iteration left, the Collection loop performs at
least one more underlying call. -/
theorem collRetryAux_calls_lb (op : Nat → Option GoError) :
    ∀ (fuel i c r : Nat) (err : Option GoError), 1 ≤ fuel →
      c + 1 ≤ (collRetryAux op fuel i c r err).calls := by
  intro fuel
  induction fuel with
  | zero => intro i c r err h; exact absurd h (by omega)
  | succ f ih =>
      intro i c r err _
      by_cases h : isNetworkError (op i) = true
      · rw [collRetryAux_step_net op f i c r err h]
        cases f with
        | zero => simp [collRetryAux]
        | succ g => have := ih (i + 1) (c + 1) (r + 1) (op i) (by omega); omega
      · rw [collRetryAux_step_exit op f i c r err (by simpa using h)]

/-- The Collection loop never decreases the refresh counter. -/
theorem collRetryAux_refreshes_lb (op : Nat → Option GoError) :
    ∀ (fuel i c r : Nat) (err : Option GoError),
      r ≤ (collRetryAux op fuel i c r err).refreshes := by
  intro fuel
  induction fuel with
  | zero => intro i c r err; simp [collRetryAux]
  | succ f ih =>
      intro i c r err
      by_cases h : isNetworkError (op i) = true
      · rw [collRetryAux_step_net op f i c r err h]
        have := ih (i + 1) (c + 1) (r + 1) (op i); omega
      · rw [collRetryAux_step_exit op f i c r err (by simpa using h)]

/-- When every remaining attempt fails with a network error, the
Collection loop exhausts its fuel, refreshing after every attempt, and
ends holding the last attempt's error. -/
theorem collRetryAux_all_network (op : Nat → Option GoError) :
    ∀ (fuel i c r : Nat) (err : Option GoError), 1 ≤ fuel →
      (∀ j, j < fuel → isNetworkError (op (i + j)) = true) →
      collRetryAux op fuel i c r err = ⟨op (i + fuel - 1), c + fuel, r + fuel⟩ := by
  intro fuel
  induction fuel with
  | zero => intro i c r err h; exact absurd h (by omega)
  | succ f ih =>
      intro i c r err _ hnet
      have h0 : isNetworkError (op i) = true := by simpa using hnet 0 (by omega)
      rw [collRetryAux_step_net op f i c r err h0]
      cases f with
      | zero => simp [collRetryAux]
      | succ g =>
          rw [ih (i + 1) (c + 1) (r + 1) (op i) (by omega)
            (fun j hj => by
              have := hnet (j + 1) (by omega)
              simpa [Nat.add_assoc, Nat.add_comm 1 j] using this)]
          have harg : i + 1 + (g + 1) - 1 = i + (g + 1 + 1) - 1 := by omega
          rw [harg]
          congr 1 <;> omega

/-- One iteration of the Query loop on success: returns immediately. -/
theorem queryRetryAux_step_ok (op : Nat → Option GoError) (fuel i c r : Nat)
    (err : Option GoError) (h : op i = none) :
    queryRetryAux op (fuel + 1) i c r err = ⟨none, c + 1, r⟩ := by
  simp [queryRetryAux, h]

/-- One iteration of the Query loop on a network error: refreshes and
re-enters the loop. -/
theorem queryRetryAux_step_net (op : Nat → Option GoError) (fuel i c r : Nat)
    (err : Option GoError) (e : GoError) (ho : op i = some e)
    (h : isNetworkError (some e) = true) :
    queryRetryAux op (fuel + 1) i c r err =
      queryRetryAux op fuel (i + 1) (c + 1) (r + 1) (some e) := by
  simp [queryRetryAux, ho, h]

/-- One iteration of the Query loop on a non-nil, non-network error:
re-enters the loop without refreshing (the `continue` branch). -/
theorem queryRetryAux_step_bad (op : Nat → Option GoError) (fuel i c r : Nat)
    (err : Option GoError) (e : GoError) (ho : op i = some e)
    (h : isNetworkError (some e) = false) :
    queryRetryAux op (fuel + 1) i c r err =
      queryRetryAux op fuel (i + 1) (c + 1) r (some e) := by
  simp [queryRetryAux, ho, h]

/-- With at least one iteration left, the Query loop performs at least
one more underlying call. -/
theorem queryRetryAux_calls_lb (op : Nat → Option GoError) :
    ∀ (fuel i c r : Nat) (err : Option GoError), 1 ≤ fuel →
      c + 1 ≤ (queryRetryAux op fuel i c r err).calls := by
  intro fuel
  induction fuel with
  | zero => intro i c r err h; exact absurd h (by omega)
  | succ f ih =>
      intro i c r err _
      cases ho : op i with
      | none => rw [queryRetryAux_step_ok op f i c r err ho]
      | some e =>
          by_cases h : isNetworkError (some e) = true
          · rw [queryRetryAux_step_net op f i c r err e ho h]
            cases f with
            | zero => simp [queryRetryAux]
            | succ g => have := ih (i + 1) (c + 1) (r + 1) (some e) (by omega); omega
          · rw [queryRetryAux_step_bad op f i c r err e ho (by simpa using h)]
            cases f with
            | zero => simp [queryRetryAux]
            | succ g => have := ih (i + 1) (c + 1) r (some e) (by omega); omega

/-- The Query loop never decreases the refresh counter. -/
theorem queryRetryAux_refreshes_lb (op : Nat → Option GoError) :
    ∀ (fuel i c r : Nat) (err : Option GoError),
      r ≤ (queryRetryAux op fuel i c r err).refreshes := by
  intro fuel
  induction fuel with
  | zero => intro i c r err; simp [queryRetryAux]
  | succ f ih =>
      intro i c r err
      cases ho : op i with
      | none => rw [queryRetryAux_step_ok op f i c r err ho]
      | some e =>
          by_cases h : isNetworkError (some e) = true
          · rw [queryRetryAux_step_net op f i c r err e ho h]
            have := ih (i + 1) (c + 1) (r + 1) (some e); omega
          · rw [queryRetryAux_step_bad op f i c r err e ho (by simpa using h)]
            have := ih (i + 1) (c + 1) r (some e); omega

/-- When every remaining attempt fails with a network error, the Query
loop behaves exactly like the Collection loop: it exhausts its fuel,
refreshing after every attempt, and ends holding the last error. -/
theorem queryRetryAux_all_network (op : Nat → Option GoError) :
    ∀ (fuel i c r : Nat) (err : Option GoError), 1 ≤ fuel →
      (∀ j, j < fuel → isNetworkError (op (i + j)) = true) →
      queryRetryAux op fuel i c r err = ⟨op (i + fuel - 1), c + fuel, r + fuel⟩ := by
  intro fuel
  induction fuel with
  | zero => intro i c r err h; exact absurd h (by omega)
  | succ f ih =>
      intro i c r err _ hnet
      have h0 : isNetworkError (op i) = true := by simpa using hnet 0 (by omega)
      cases ho : op i with
      | none => rw [ho] at h0; simp [isNetworkError] at h0
      | some e =>
          rw [ho] at h0
          rw [queryRetryAux_step_net op f i c r err e ho h0]
          cases f with
          | zero => simp [queryRetryAux, ← ho]
          | succ g =>
              rw [ih (i + 1) (c + 1) (r + 1) (some e) (by omega)
                (fun j hj => by
                  have := hnet (j + 1) (by omega)
                  simpa [Nat.add_assoc, Nat.add_comm 1 j] using this)]
              have harg : i + 1 + (g + 1) - 1 = i + (g + 1 + 1) - 1 := by omega
              rw [harg]
              congr 1 <;> omega

/-- When every remaining attempt fails with a non-nil, non-network error,
the Query loop exhausts its fuel without ever refreshing and ends holding
the last error. -/
theorem queryRetryAux_all_bad (op : Nat → Option GoError) :
    ∀ (fuel i c r : Nat) (err : Option GoError), 1 ≤ fuel →
      (∀ j, j < fuel → op (i + j) ≠ none ∧ isNetworkError (op (i + j)) = false) →
      queryRetryAux op fuel i c r err = ⟨op (i + fuel - 1), c + fuel, r⟩ := by
  intro fuel
  induction fuel with
  | zero => intro i c r err h; exact absurd h (by omega)
  | succ f ih =>
      intro i c r err _ hbad
      obtain ⟨hne, hnn⟩ := hbad 0 (by omega)
      rw [Nat.add_zero] at hne hnn
      cases ho : op i with
      | none => exact absurd ho hne
      | some e =>
          rw [ho] at hnn
          rw [queryRetryAux_step_bad op f i c r err e ho hnn]
          cases f with
          | zero => simp [queryRetryAux, ← ho]
          | succ g =>
              rw [ih (i + 1) (c + 1) r (some e) (by omega)
                (fun j hj => by
                  have := hbad (j + 1) (by omega)
                  simpa [Nat.add_assoc, Nat.add_comm 1 j] using this)]
              have harg : i + 1 + (g + 1) - 1 = i + (g + 1 + 1) - 1 := by omega
              rw [harg]
              congr 1
              omega

/-! ## Claim theorems -/

/-- C1 counterexample: with the default budget 2, the Query terminal
operation `One` given a non-transient "not found" error re-attempts the
underlying call (2 invocations, not the claimed single one), although it
indeed never refreshes. -/
theorem c1_counterexample :
    (Query.One testQuery notFoundOp).calls = 2 ∧
    (Query.One testQuery notFoundOp).refreshes = 0 ∧
    isNetworkError (notFoundOp 0) = false := by
  decide

/-- C1 (amended): a transient error makes both envelopes refresh and
re-attempt; a non-transient outcome is returned from the first attempt
without refresh or re-attempt by the Collection envelope, but the Query
terminal envelope returns first-attempt only on success (nil error): a
non-transient error there re-enters the loop without refreshing, and the
last attempt's error is returned once the budget is exhausted. -/
theorem c1_retry_policy_amended (c : Collection) (q : Query)
    (op : Nat → Option GoError) (n : Nat) :
    (c.Database.MaxConnectRetries = (n : Int) → 1 ≤ n →
      isNetworkError (op 0) = false → c.Insert op = ⟨op 0, 1, 0⟩) ∧
    (c.Database.MaxConnectRetries = (n : Int) → 2 ≤ n →
      isNetworkError (op 0) = true →
      2 ≤ (c.Insert op).calls ∧ 1 ≤ (c.Insert op).refreshes) ∧
    (q.db.MaxConnectRetries = (n : Int) → 1 ≤ n → op 0 = none →
      q.One op = ⟨none, 1, 0⟩) ∧
    (q.db.MaxConnectRetries = (n : Int) → 2 ≤ n →
      isNetworkError (op 0) = true →
      2 ≤ (q.One op).calls ∧ 1 ≤ (q.One op).refreshes) ∧
    (q.db.MaxConnectRetries = (n : Int) → 1 ≤ n →
      (∀ i, i < n → op i ≠ none ∧ isNetworkError (op i) = false) →
      q.One op = ⟨op (n - 1), n, 0⟩) := by
  have htn : ∀ m : Nat, ((m : Int)).toNat = m := fun m => by omega
  refine ⟨fun hc h1 hnn => ?_, fun hc h2 hnet => ?_, fun hq h1 hok => ?_,
    fun hq h2 hnet => ?_, fun hq h1 hbad => ?_⟩
  · obtain ⟨m, rfl⟩ : ∃ m, n = m + 1 := ⟨n - 1, by omega⟩
    simp only [Collection.Insert, collRetry, hc, htn]
    exact collRetryAux_step_exit op m 0 0 0 none hnn
  · obtain ⟨m, rfl⟩ : ∃ m, n = m + 2 := ⟨n - 2, by omega⟩
    simp only [Collection.Insert, collRetry, hc, htn]
    rw [collRetryAux_step_net op (m + 1) 0 0 0 none hnet]
    exact ⟨collRetryAux_calls_lb op (m + 1) 1 1 1 (op 0) (by omega),
      collRetryAux_refreshes_lb op (m + 1) 1 1 1 (op 0)⟩
  · obtain ⟨m, rfl⟩ : ∃ m, n = m + 1 := ⟨n - 1, by omega⟩
    simp only [Query.One, queryRetry, hq, htn]
    exact queryRetryAux_step_ok op m 0 0 0 none hok
  · obtain ⟨m, rfl⟩ : ∃ m, n = m + 2 := ⟨n - 2, by omega⟩
    simp only [Query.One, queryRetry, hq, htn]
    cases ho : op 0 with
    | none => rw [ho] at hnet; simp [isNetworkError] at hnet
    | some e =>
        rw [ho] at hnet
        rw [queryRetryAux_step_net op (m + 1) 0 0 0 none e ho hnet]
        exact ⟨queryRetryAux_calls_lb op (m + 1) 1 1 1 (some e) (by omega),
          queryRetryAux_refreshes_lb op (m + 1) 1 1 1 (some e)⟩
  · simp only [Query.One, queryRetry, hq, htn]
    have := queryRetryAux_all_bad op n 0 0 0 none h1 (fun j hj => by simpa using hbad j hj)
    simpa using this

/-- Witness for C1 (amended): every clause instantiated at the default
budget 2 with concrete underlying outcomes. -/
theorem c1_retry_policy_amended_witness :
    Collection.Insert testCol notFoundOp = ⟨notFoundOp 0, 1, 0⟩ ∧
    (2 ≤ (Collection.Insert testCol eofOp).calls ∧
      1 ≤ (Collection.Insert testCol eofOp).refreshes) ∧
    Query.One testQuery okOp = ⟨none, 1, 0⟩ ∧
    (2 ≤ (Query.One testQuery eofOp).calls ∧
      1 ≤ (Query.One testQuery eofOp).refreshes) ∧
    Query.One testQuery notFoundOp = ⟨notFoundOp 1, 2, 0⟩ :=
  ⟨(c1_retry_policy_amended testCol testQuery notFoundOp 2).1 (by decide) (by decide)
      (by decide),
   (c1_retry_policy_amended testCol testQuery eofOp 2).2.1 (by decide) (by decide)
      (by decide),
   (c1_retry_policy_amended testCol testQuery okOp 2).2.2.1 (by decide) (by decide) rfl,
   (c1_retry_policy_amended testCol testQuery eofOp 2).2.2.2.1 (by decide) (by decide)
      (by decide),
   (c1_retry_policy_amended testCol testQuery notFoundOp 2).2.2.2.2 (by decide) (by decide)
      (fun i _ => ⟨by simp [notFoundOp], rfl⟩)⟩

/-- C2: when every attempt fails with a transient network error, the
Collection/Iter retry envelope with budget `n ≥ 1` performs exactly `n`
underlying invocations, invokes refresh after each of them, and returns
the `n`-th attempt's error unchanged. -/
theorem c2_exhaust_budget_last_error (c : Collection) (iter : Iter) (n : Nat)
    (op : Nat → Option GoError)
    (hc : c.Database.MaxConnectRetries = (n : Int))
    (hi : iter.db.MaxConnectRetries = (n : Int))
    (hn : 1 ≤ n)
    (hnet : ∀ i, i < n → isNetworkError (op i) = true) :
    c.Insert op = ⟨op (n - 1), n, n⟩ ∧ iter.All op = ⟨op (n - 1), n, n⟩ := by
  have htn : ((n : Int)).toNat = n := by omega
  have key : collRetry (n : Int) op = ⟨op (n - 1), n, n⟩ := by
    simp only [collRetry, htn]
    have := collRetryAux_all_network op n 0 0 0 none hn (fun j hj => by simpa using hnet j hj)
    simpa using this
  constructor
  · simp only [Collection.Insert, hc]; exact key
  · simp only [Iter.All, hi]; exact key

/-- Witness for C2: budget 2, an underlying operation failing with EOF on
every attempt. -/
theorem c2_exhaust_budget_last_error_witness :
    Collection.Insert testCol eofOp = ⟨eofOp 1, 2, 2⟩ ∧
    Iter.All ⟨testDB⟩ eofOp = ⟨eofOp 1, 2, 2⟩ :=
  c2_exhaust_budget_last_error testCol ⟨testDB⟩ 2 eofOp (by decide) (by decide)
    (by decide) (fun i _ => rfl)

/-- C3: the failure classifier `isNetworkError` returns `false` on nil,
`true` on `io.EOF`, `true` on any `*net.OpError`, `true` when the
lowercased message starts or ends with `"closed"`, and `false` on every
other error. -/
theorem c3_classifier_policy :
    isNetworkError none = false ∧
    isNetworkError (some .eof) = true ∧
    (∀ msg, isNetworkError (some (.opError msg)) = true) ∧
    (∀ msg, startsWithStr (goToLower msg) "closed" = true ∨
        endsWithStr (goToLower msg) "closed" = true →
      isNetworkError (some (.other msg)) = true) ∧
    (∀ msg, startsWithStr (goToLower msg) "closed" = false →
        endsWithStr (goToLower msg) "closed" = false →
      isNetworkError (some (.other msg)) = false) := by
  refine ⟨rfl, rfl, fun msg => rfl, fun msg h => ?_, fun msg h1 h2 => ?_⟩
  · rcases h with h | h <;> simp [isNetworkError, h]
  · simp [isNetworkError, h1, h2]

/-- Witness for C3: the classifier evaluated on a socket error, a message
starting with "Closed", a message ending with "closed", and a domain
error. -/
theorem c3_classifier_policy_witness :
    isNetworkError (some (.opError "read tcp: connection reset by peer")) = true ∧
    isNetworkError (some (.other "Closed explicitly")) = true ∧
    isNetworkError (some (.other "explicitly closed")) = true ∧
    isNetworkError (some (.other "not found")) = false :=
  ⟨c3_classifier_policy.2.2.1 "read tcp: connection reset by peer",
   c3_classifier_policy.2.2.2.1 "Closed explicitly" (Or.inl (by decide)),
   c3_classifier_policy.2.2.2.1 "explicitly closed" (Or.inr (by decide)),
   c3_classifier_policy.2.2.2.2 "not found" (by decide) (by decide)⟩

/-- C4: `Dial` resolves the working database name with the `db` query
parameter taking precedence over the URL path segment and fails with the
configuration error when neither is present; in particular the target
`cluster://host:27017/mydb` resolves name `mydb` with the default budget,
`cluster://host:27017?db=other&maxRetries=5` resolves name `other` with
budget 5, and `cluster://host:27017` fails with no session. -/
theorem c4_dial_db_resolution :
    Dial "cluster://host:27017/mydb" = .ok ⟨"mydb", 2, false⟩ ∧
    Dial "cluster://host:27017?db=other&maxRetries=5" = .ok ⟨"other", 5, false⟩ ∧
    Dial "cluster://host:27017" = .error noDbNameError ∧
    (∀ u db', dialFromURL u = .ok db' →
      db'.Name = if queryGet u.query "db" ≠ "" then queryGet u.query "db"
        else String.mk (u.path.toList.drop 1)) ∧
    (∀ u, queryGet u.query "db" = "" → u.path.length ≤ 1 →
      dialFromURL u = .error noDbNameError) := by
  refine ⟨rfl, rfl, rfl, ?_, ?_⟩
  · intro u db' h
    unfold dialFromURL at h
    cases hn : resolveDbName u with
    | error e => rw [hn] at h; exact absurd h (by simp)
    | ok name =>
        rw [hn] at h
        cases hr : resolveMaxRetries u.query with
        | error e => rw [hr] at h; exact absurd h (by simp)
        | ok k =>
            rw [hr] at h
            injection h with h2
            subst h2
            unfold resolveDbName at hn
            by_cases h1 : queryGet u.query "db" ≠ ""
            · rw [if_pos h1] at hn
              injection hn with h3
              simp [h1, ← h3]
            · rw [if_neg h1] at hn
              by_cases h2 : 1 < u.path.length
              · rw [if_pos h2] at hn
                injection hn with h3
                simp [h1, ← h3]
              · rw [if_neg h2] at hn
                exact absurd hn (by simp)
  · intro u h1 h2
    unfold dialFromURL
    have hn : resolveDbName u = .error noDbNameError := by
      unfold resolveDbName
      rw [if_neg (by simp [h1]), if_neg (by omega)]
    rw [hn]

/-- Witness for C4: the name-precedence clause applied to the parsed
`?db=other` target, and the failure clause applied to the parsed bare
target. -/
theorem c4_dial_db_resolution_witness :
    Database.Name ⟨"other", 5, false⟩ =
      (if queryGet (parseURL "cluster://host:27017?db=other&maxRetries=5").query "db" ≠ ""
       then queryGet (parseURL "cluster://host:27017?db=other&maxRetries=5").query "db"
       else String.mk
         ((parseURL "cluster://host:27017?db=other&maxRetries=5").path.toList.drop 1)) ∧
    dialFromURL (parseURL "cluster://host:27017") = .error noDbNameError :=
  ⟨c4_dial_db_resolution.2.2.2.1 (parseURL "cluster://host:27017?db=other&maxRetries=5")
      ⟨"other", 5, false⟩ rfl,
   c4_dial_db_resolution.2.2.2.2 (parseURL "cluster://host:27017") rfl (by decide)⟩

/-- C5 counterexample: a negative `maxRetries` does not make `Dial` fail;
`strconv.Atoi` parses `-1` and the session handle is returned with
budget `-1`. -/
theorem c5_counterexample :
    Dial "cluster://host:27017/mydb?maxRetries=-1" = .ok ⟨"mydb", -1, false⟩ ∧
    dialFails "cluster://host:27017/mydb?maxRetries=-1" = false :=
  ⟨rfl, rfl⟩

/-- C5 (amended): `Dial` fails whenever a present `maxRetries` parameter
does not parse under `strconv.Atoi` (non-integer syntax or out of the
64-bit range); any value `Atoi` accepts — negative integers included —
becomes the retry budget; an absent parameter defaults to 2 (within the
spec's 2–3 range). -/
theorem c5_maxretries_amended :
    (∀ u e, queryGet u.query "maxRetries" ≠ "" →
      goAtoi (queryGet u.query "maxRetries") = .error e →
      ∀ db', dialFromURL u ≠ .ok db') ∧
    (∀ u db', dialFromURL u = .ok db' →
      (queryGet u.query "maxRetries" = "" → db'.MaxConnectRetries = 2) ∧
      (queryGet u.query "maxRetries" ≠ "" →
        goAtoi (queryGet u.query "maxRetries") = .ok db'.MaxConnectRetries)) ∧
    Dial "cluster://host:27017/mydb?maxRetries=-1" = .ok ⟨"mydb", -1, false⟩ ∧
    dialFails "cluster://host:27017/mydb?maxRetries=abc" = true ∧
    Dial "cluster://host:27017/mydb" = .ok ⟨"mydb", 2, false⟩ := by
  refine ⟨?_, ?_, rfl, by decide, rfl⟩
  · intro u e hne hA db' h
    unfold dialFromURL at h
    cases hn : resolveDbName u with
    | error e2 => rw [hn] at h; exact absurd h (by simp)
    | ok name =>
        rw [hn] at h
        have hr : resolveMaxRetries u.query = .error e := by
          unfold resolveMaxRetries
          rw [if_pos hne]
          exact hA
        rw [hr] at h
        exact absurd h (by simp)
  · intro u db' h
    unfold dialFromURL at h
    cases hn : resolveDbName u with
    | error e => rw [hn] at h; exact absurd h (by simp)
    | ok name =>
        rw [hn] at h
        cases hr : resolveMaxRetries u.query with
        | error e => rw [hr] at h; exact absurd h (by simp)
        | ok k =>
            rw [hr] at h
            injection h with h2
            subst h2
            constructor
            · intro hempty
              unfold resolveMaxRetries at hr
              rw [if_neg (by simp [hempty])] at hr
              injection hr with h3
              exact h3.symm
            · intro hne
              unfold resolveMaxRetries at hr
              rw [if_pos hne] at hr
              exact hr

/-- Witness for C5 (amended): the failure clause applied to the parsed
`maxRetries=abc` target, and the parsing clause applied to the parsed
`maxRetries=5` target. -/
theorem c5_maxretries_amended_witness :
    dialFromURL (parseURL "cluster://host:27017/mydb?maxRetries=abc") ≠
      .ok testDB ∧
    goAtoi (queryGet (parseURL "cluster://host:27017?db=other&maxRetries=5").query
      "maxRetries") = .ok (Database.MaxConnectRetries ⟨"other", 5, false⟩) :=
  ⟨c5_maxretries_amended.1 (parseURL "cluster://host:27017/mydb?maxRetries=abc")
      "strconv.Atoi: parsing \"abc\": invalid syntax" (by decide) rfl testDB,
   (c5_maxretries_amended.2.1 (parseURL "cluster://host:27017?db=other&maxRetries=5")
      ⟨"other", 5, false⟩ rfl).2 (by decide)⟩

/-- C6: `Database.Run` executes the command once; exactly when the first
attempt's error is transient it performs one `session.Refresh()` and one
re-execution and returns the second outcome unchanged; otherwise (success
included) it returns the first outcome immediately; it never makes a
third attempt or a second reconnect, whatever the session's retry
budget (the budget does not occur in `Database.Run` at all). -/
theorem c6_run_single_retry (op : Nat → Option GoError) :
    (isNetworkError (op 0) = true → Database.Run op = ⟨op 1, 2, 1⟩) ∧
    (isNetworkError (op 0) = false → Database.Run op = ⟨op 0, 1, 0⟩) ∧
    (Database.Run op).calls ≤ 2 ∧ (Database.Run op).reconnects ≤ 1 := by
  refine ⟨fun h => ?_, fun h => ?_, ?_, ?_⟩
  · have hs : (op 0).isSome = true := by
      cases ho : op 0 with
      | none => rw [ho] at h; simp [isNetworkError] at h
      | some e => simp
    simp [Database.Run, hs, h]
  · simp [Database.Run, h]
  · by_cases h : ((op 0).isSome && isNetworkError (op 0)) = true <;>
      simp [Database.Run, h]
  · by_cases h : ((op 0).isSome && isNetworkError (op 0)) = true <;>
      simp [Database.Run, h]

/-- Witness for C6: a transient first attempt triggers exactly one
refresh-then-retry; a domain error is returned on the first attempt. -/
theorem c6_run_single_retry_witness :
    isNetworkError (eofThenOkOp 0) = true ∧
    Database.Run eofThenOkOp = ⟨eofThenOkOp 1, 2, 1⟩ ∧
    isNetworkError (notFoundOp 0) = false ∧
    Database.Run notFoundOp = ⟨notFoundOp 0, 1, 0⟩ :=
  ⟨by decide, (c6_run_single_retry eofThenOkOp).1 (by decide),
   by decide, (c6_run_single_retry notFoundOp).2.1 (by decide)⟩

/-- C7: when the refresh-in-progress flag is set, `Database.refresh`
sleeps one second and returns with no reconnect and no state change; when
it is clear, it performs exactly one reconnect and leaves the flag clear
(false) on return. -/
theorem c7_refresh_flag_guard :
    Database.refresh true = ⟨true, true, 0⟩ ∧
    Database.refresh false = ⟨false, false, 1⟩ := by
  decide

/-- C9: every Query builder method returns the handle it was called on
with only the accumulated builder state extended (the recorded driver
builder call pushed on front), leaving the owning `Database` reference —
hence the session, retry budget `MaxConnectRetries`, and `refreshing`
flag — untouched; and the terminal methods `One`, `All`, `Explain`,
`Apply` are exactly the retry envelope `queryRetry` applied with the
owning session's budget. -/
theorem c9_builders_frame (q : Query) (n m k s d : Int) (p : Float64)
    (sel : GoValue) (fields indexKey : List String) (cm : String)
    (op : Nat → Option GoError) :
    (q.Batch n).db = q.db ∧ (q.Batch n).q = .batch n :: q.q ∧
    (q.Prefetch p).db = q.db ∧ (q.Prefetch p).q = .prefetch p :: q.q ∧
    (q.Skip m).db = q.db ∧ (q.Skip m).q = .skip m :: q.q ∧
    (q.Limit k).db = q.db ∧ (q.Limit k).q = .limit k :: q.q ∧
    (q.Select sel).db = q.db ∧ (q.Select sel).q = .select sel :: q.q ∧
    (q.Sort fields).db = q.db ∧ (q.Sort fields).q = .sort fields :: q.q ∧
    (q.Hint indexKey).db = q.db ∧ (q.Hint indexKey).q = .hint indexKey :: q.q ∧
    (q.SetMaxScan s).db = q.db ∧ (q.SetMaxScan s).q = .setMaxScan s :: q.q ∧
    (q.SetMaxTime d).db = q.db ∧ (q.SetMaxTime d).q = .setMaxTime d :: q.q ∧
    q.Snapshot.db = q.db ∧ q.Snapshot.q = .snapshot :: q.q ∧
    (q.Comment cm).db = q.db ∧ (q.Comment cm).q = .comment cm :: q.q ∧
    q.LogReplay.db = q.db ∧ q.LogReplay.q = .logReplay :: q.q ∧
    q.One op = queryRetry q.db.MaxConnectRetries op ∧
    q.All op = queryRetry q.db.MaxConnectRetries op ∧
    q.Explain op = queryRetry q.db.MaxConnectRetries op ∧
    q.Apply op = queryRetry q.db.MaxConnectRetries op := by
  refine ⟨rfl, rfl, rfl, rfl, rfl, rfl, rfl, rfl, rfl, rfl, rfl, rfl, rfl, rfl,
    rfl, rfl, rfl, rfl, rfl, rfl, rfl, rfl, rfl, rfl, rfl, rfl, rfl, rfl⟩

/-- C10: `Clone` and `Copy` build the new handle without propagating the
retry budget (which therefore is Go's zero value 0), so a retry-wrapped
operation through such a handle runs its loop zero times and returns the
zero-value result and nil error without any driver invocation or refresh,
whereas `DB(name)` propagates the budget. -/
theorem c10_clone_copy_budget (db : Database) (name : String)
    (op : Nat → Option GoError) (opv : Nat → Int × Option GoError) :
    db.Clone.MaxConnectRetries = 0 ∧
    db.Copy.MaxConnectRetries = 0 ∧
    (db.DB name).MaxConnectRetries = db.MaxConnectRetries ∧
    (db.Clone.C name).Insert op = ⟨none, 0, 0⟩ ∧
    (db.Copy.C name).Insert op = ⟨none, 0, 0⟩ ∧
    (db.Clone.C name).Update op = ⟨none, 0, 0⟩ ∧
    (db.Clone.C name).Count opv = ⟨0, none, 0, 0⟩ := by
  exact ⟨rfl, rfl, rfl, rfl, rfl, rfl, rfl⟩

/-- On an already-closed underlying iterator the close loop performs no
further real teardowns and leaves the iterator state unchanged. -/
theorem iterCloseAux_closed :
    ∀ (fuel : Nat) (it : MgoIter) (err : Option GoError) (c r td : Nat),
      it.closed = true →
      (iterCloseAux fuel it err c r td).1 = it ∧
      (iterCloseAux fuel it err c r td).2.teardowns = td := by
  intro fuel
  induction fuel with
  | zero => intro it err c r td h; exact ⟨rfl, rfl⟩
  | succ f ih =>
      intro it err c r td h
      have hm : mgoIterClose it = (it, it.closeResult, 0) := by
        simp [mgoIterClose, h]
      by_cases hnet : isNetworkError it.closeResult = true
      · simp only [iterCloseAux, hm, hnet, if_true]
        have := ih it it.closeResult (c + 1) (r + 1) (td + 0) h
        simpa using this
      · simp only [iterCloseAux, hm]
        rw [if_neg (by simpa using hnet)]
        exact ⟨rfl, rfl⟩

/-- After a close loop that ran at least one iteration, the underlying
iterator is closed, its fixed close result is preserved, and that result
is exactly what the loop returns. -/
theorem iterCloseAux_run :
    ∀ (fuel : Nat) (it : MgoIter) (err : Option GoError) (c r td : Nat), 1 ≤ fuel →
      (iterCloseAux fuel it err c r td).1.closed = true ∧
      (iterCloseAux fuel it err c r td).1.closeResult = it.closeResult ∧
      (iterCloseAux fuel it err c r td).2.result = it.closeResult := by
  intro fuel
  induction fuel with
  | zero => intro it err c r td h; exact absurd h (by omega)
  | succ f ih =>
      intro it err c r td _
      obtain ⟨it2, hcl, hres, hm⟩ :
          ∃ it2, it2.closed = true ∧ it2.closeResult = it.closeResult ∧
            mgoIterClose it = (it2, it.closeResult, if it.closed then 0 else 1) := by
        by_cases h : it.closed = true
        · exact ⟨it, h, rfl, by simp [mgoIterClose, h]⟩
        · refine ⟨{ it with closed := true }, rfl, rfl, ?_⟩
          simp only [Bool.not_eq_true] at h
          simp [mgoIterClose, h]
      by_cases hnet : isNetworkError it.closeResult = true
      · simp only [iterCloseAux, hm, hnet, if_true]
        cases f with
        | zero => simp [iterCloseAux, hcl, hres]
        | succ g =>
            have := ih it2 it.closeResult (c + 1) (r + 1)
              (td + if it.closed then 0 else 1) (by omega)
            exact ⟨this.1, by rw [this.2.1, hres], by rw [this.2.2, hres]⟩
      · simp only [iterCloseAux, hm]
        rw [if_neg (by simpa using hnet)]
        exact ⟨hcl, hres, rfl⟩

/-- A close loop performs at most one real teardown beyond those already
counted. -/
theorem iterCloseAux_teardown_bound :
    ∀ (fuel : Nat) (it : MgoIter) (err : Option GoError) (c r td : Nat),
      (iterCloseAux fuel it err c r td).2.teardowns ≤ td + 1 := by
  intro fuel
  induction fuel with
  | zero => intro it err c r td; simp [iterCloseAux]
  | succ f ih =>
      intro it err c r td
      by_cases h : it.closed = true
      · have := (iterCloseAux_closed (f + 1) it err c r td h).2
        omega
      · simp only [Bool.not_eq_true] at h
        have hm : mgoIterClose it = ({ it with closed := true }, it.closeResult, 1) := by
          simp [mgoIterClose, h]
        by_cases hnet : isNetworkError it.closeResult = true
        · simp only [iterCloseAux, hm, hnet, if_true]
          have := (iterCloseAux_closed f { it with closed := true } it.closeResult
            (c + 1) (r + 1) (td + 1) rfl).2
          omega
        · simp only [iterCloseAux, hm]
          rw [if_neg (by simpa using hnet)]

/-- C8: `Iter.Close` is idempotent under the driver iterator's own
idempotence contract (modelled by `mgoIterClose`): a second wrapper
`Close` on the same cursor handle returns the same result as the first
and performs no further real teardown, while the first call performs at
most one. -/
theorem c8_close_idempotent (N : Int) (it : MgoIter) :
    (Iter.Close N (Iter.Close N it).1).2.result = (Iter.Close N it).2.result ∧
    (Iter.Close N (Iter.Close N it).1).2.teardowns = 0 ∧
    (Iter.Close N it).2.teardowns ≤ 1 := by
  simp only [Iter.Close]
  cases hf : N.toNat with
  | zero => simp [iterCloseAux]
  | succ f =>
      have h1 := iterCloseAux_run (f + 1) it none 0 0 0 (by omega)
      have h2 := iterCloseAux_run (f + 1) (iterCloseAux (f + 1) it none 0 0 0).1
        none 0 0 0 (by omega)
      refine ⟨?_, ?_, ?_⟩
      · rw [h2.2.2, h1.2.1, h1.2.2]
      · exact (iterCloseAux_closed (f + 1) (iterCloseAux (f + 1) it none 0 0 0).1
          none 0 0 0 h1.1).2
      · have := iterCloseAux_teardown_bound (f + 1) it none 0 0 0
        omega

end Mdb
